/-
Verification of the casting-bot intake and reconciliation logic.

The definitions below are a shallow embedding of `src/bot.py`:
Python strings are Lean `String`s manipulated through their character
lists, the Google-Sheets store is a list of (worksheet-title, rows)
pairs where each row is a list of cell strings, the aiogram FSM session
is an explicit `Session` value, and the network side effects that the
handlers observe (duplicate-check outcome, Drive upload outcome, send
success, transient read failures) are threaded as explicit parameters.
-/
import Mathlib

/-! ## Configuration constants (bot.py, CONFIG section) -/

def DATES : List String :=
  ["10.01.2026", "11.01.2026", "13.01.2026", "14.01.2026",
   "17.01.2026", "18.01.2026", "20.01.2026", "21.01.2026"]

def NAMEPRINT_CONST : String := "Stanislav Maspanov"

def SHOOTPLACE_CONST : String := "Ukraine"

def SHOOTSTATE_CONST : String := "Kyiv"

def COUNTRY_CONST : String := "Ukraine"

def BASE_HEADER : List String :=
  ["Nameprint", "DateSigned", "ShootDate", "ShootPlace", "ShootState",
   "ModelName", "DateOfBirth", "ResidenceAddress", "City", "State",
   "Country", "ZipCode", "Phone", "Email", "GuardianName",
   "DateSigneded", "Photo"]

def MANAGER_HEADER : List String := ["TelegramChatId", "Status", "NotifiedAt"]

def HEADER : List String := BASE_HEADER ++ MANAGER_HEADER

def STATUS_PENDING : String := "pending"

def STATUS_APPROVED : String := "approved"

def STATUS_REJECTED : String := "rejected"

/-! ## Message texts (bot.py, TEXTS section and inline handler texts) -/

def UA_FINISH : String :=
  "Дякуємо! 💛 Ваша заявка успішно надіслана.\n\nМенеджер опрацьовує списки ближче до дати зйомки.\nІнформацію по локації та точним деталям ми надішлемо ближче до зйомки.\nНа майданчику вас зустріне адміністратор і підкаже все необхідне.\n\nХочете подати ще одну людину?"

def UA_APPROVED : String :=
  "Є новини 💛\n\nВаша заявка Погоджена ✅\nДеталі по локації та організації ми надішлемо ближче до зйомки.\nЯкщо потрібно щось уточнити — менеджер з вами звʼяжеться."

def UA_REJECTED : String :=
  "Дякуємо 💛\n\nЦього разу, на жаль, не виходить ❌\nАле ми збережемо контакт — можемо написати вам щодо наступних зйомок."

def MSG_NAME_FMT : String :=
  "Трошки не так 🙂 Введіть, будь ласка, англійською. Приклад: Anna Ivanova"

def MSG_DUP_NAME : String :=
  "Схоже, така людина вже подана на цю дату 🙂\nЯкщо це інша людина з таким самим ім’ям — додайте middle name або ініціал.\n\nСпробуйте ще раз, будь ласка 💛"

def MSG_DOB_PROMPT : String :=
  "Тепер дата народження 🗓\nБудь ласка, введіть у форматі: день.місяць.рік\nНаприклад: 22.12.1998"

def MSG_DOB_FMT : String :=
  "Майже 🙂 Формат має бути: день.місяць.рік. Приклад: 22.12.1998"

def MSG_RESIDENCE_PROMPT : String :=
  "Дякую 💛\n\nТепер адреса проживання 🏡\nЯкщо вам комфортно — додайте, будь ласка, адресу англійською (вулиця, будинок).\nЯкщо не хочете заповнювати — це абсолютно ок 😊 менеджер зможе уточнити це питання пізніше.\n\nЯкщо пропускаєте — просто напишіть: ДАЛІ"

def MSG_SKIP_TO_PHONE : String :=
  "Ок 💛 Тоді йдемо далі.\n\nНапишіть, будь ласка, номер телефону 📞\nТільки цифри у форматі: 380931111111"

def MSG_ADDR_FMT : String :=
  "Трошки не так 🙂\nАдресу, будь ласка, введіть англійською (наприклад: 12 Khreshchatyk St).\nА якщо не хочете заповнювати — просто напишіть: ДАЛІ 💛"

def MSG_CITY_PROMPT : String :=
  "Супер, дякую! ✨ Тепер напишіть місто проживання англійською. Приклад: Kyiv"

def MSG_CITY_FMT : String :=
  "Будь ласка, англійською 💛 Приклад: Kyiv"

def MSG_PHONE_PROMPT : String :=
  "І ще номер телефону 📞 Тільки цифри у форматі: 380931111111"

def MSG_PHONE_FMT : String :=
  "Майже 🙂 Номер має виглядати ось так: 380931111111 (тільки цифри)"

def MSG_EMAIL_PROMPT : String :=
  "Тепер email ✉️ Приклад: name@gmail.com"

def MSG_EMAIL_FMT : String :=
  "Схоже, email написаний з помилкою 🙂 Приклад: name@gmail.com"

def MSG_MINOR_PROMPT : String := "Вам менше 18 років?"

def MSG_GUARDIAN_FMT : String :=
  "Будь ласка, англійською 💛 Приклад: Olha Ivanova"

def MSG_GUARDIAN_OK : String :=
  "Дякую! ✨ Тепер завантажте, будь ласка, портретне фото 📸"

def MSG_NOT_PHOTO : String :=
  "Це не схоже на фото 🙂 Надішліть, будь ласка, портретне фото."

def MSG_INTERRUPTED : String :=
  "Ой 🙈 анкета перервалася. Почнемо спочатку: /start"

def MSG_UPLOADING : String := "Дякую! 💛 Завантажую фото…"

def MSG_UPLOAD_FAIL (ename : String) : String :=
  "Не вдалося завантажити фото 😔\nСпробуйте ще раз або напишіть адміну.\n\nТехнічна помилка: " ++ ename

def MSG_CONSENT_PROMPT : String :=
  "Майже готово ✅\nПідтвердіть, будь ласка, що ви погоджуєтесь на використання цих даних для оформлення модельного релізу 💛"

def MSG_FORM_INACTIVE : String :=
  "Форма не активна 🙈 Почнемо спочатку: /start"

def MSG_DUP_CONSENT : String :=
  "Схоже, ця людина вже є у списку на цю дату 🙂\nЯкщо це інша людина з таким самим ім’ям — подайте ще раз з middle name/ініціалом.\n\nНатисніть: Подати ще одну людину"

/-! ## Character-level helpers (python str semantics on the repertoire the bot uses) -/

/-- Model of python `str.lower` for one character: ASCII letters and the
basic Ukrainian Cyrillic repertoire that appears in the bot's inputs. -/
def pyLower (c : Char) : Char :=
  if 65 ≤ c.toNat ∧ c.toNat ≤ 90 then Char.ofNat (c.toNat + 32)
  else if 1040 ≤ c.toNat ∧ c.toNat ≤ 1071 then Char.ofNat (c.toNat + 32)
  else if c.toNat = 1030 then Char.ofNat 1110
  else if c.toNat = 1031 then Char.ofNat 1111
  else if c.toNat = 1028 then Char.ofNat 1108
  else if c.toNat = 1168 then Char.ofNat 1169
  else c

/-- Model of python `str.lower` on a whole string. -/
def pyLowerS (s : String) : String := String.mk (s.toList.map pyLower)

/-- Model of python `str.strip` on a character list. -/
def stripChars (cs : List Char) : List Char :=
  ((cs.dropWhile Char.isWhitespace).reverse.dropWhile Char.isWhitespace).reverse

/-- Model of python `str.strip` on a string. -/
def pyStrip (s : String) : String := String.mk (stripChars s.toList)

/-! ## Field validators (bot.py, VALIDATION + HELPERS) -/

/-- One character of the `EN_TEXT_RE` class `[A-Za-z0-9\s\-\.'\,/#]`. -/
def en_char_ok (c : Char) : Bool :=
  c.isAlpha || c.isDigit || c.isWhitespace || c = '-' || c = '.' ||
  c = Char.ofNat 39 || c = ',' || c = '/' || c = '#'

/-- `is_en`: strip, require non-empty, and require every character to be
in the restricted class (full match of `EN_TEXT_RE`). -/
def is_en (s : String) : Bool :=
  let t := stripChars s.toList
  !t.isEmpty && t.all en_char_ok

/-- `is_phone`: full match of `^380\d{9}$` on the stripped input. -/
def is_phone (s : String) : Bool :=
  match stripChars s.toList with
  | '3' :: '8' :: '0' :: rest => rest.length = 9 && rest.all Char.isDigit
  | _ => false

/-- One character allowed inside the email regex classes `[^@\s]`. -/
def email_char_ok (c : Char) : Bool := !(c = '@') && !c.isWhitespace

/-- `is_email`: full match of `^[^@\s]+@[^@\s]+\.[^@\s]+$` on the stripped
input: a non-empty local part, exactly one `@`, and a domain whose
interior (neither first nor last character) contains a dot. -/
def is_email (s : String) : Bool :=
  let cs := stripChars s.toList
  let lp := cs.takeWhile (fun c => !(c = '@'))
  match cs.dropWhile (fun c => !(c = '@')) with
  | '@' :: dom =>
    !lp.isEmpty && lp.all email_char_ok && dom.all email_char_ok &&
    (dom.drop 1).dropLast.contains '.'
  | _ => false

/-- `is_next_ua`: the stripped, lower-cased input is one of the
recognized skip tokens. -/
def is_next_ua (s : String) : Bool :=
  let t := (stripChars s.toList).map pyLower
  t = "далі".toList || t = "дали".toList || t = "далi".toList || t = "next".toList

/-- The character-list matcher of `\d{2}[./]\d{2}[./]\d{4}`: note each of
the two separators is drawn from `[./]` independently. -/
def dobChk : List Char → Bool
  | [d1, d2, s1, m1, m2, s2, y1, y2, y3, y4] =>
    d1.isDigit && d2.isDigit && (s1 = '.' || s1 = '/') &&
    m1.isDigit && m2.isDigit && (s2 = '.' || s2 = '/') &&
    y1.isDigit && y2.isDigit && y3.isDigit && y4.isDigit
  | _ => false

/-- `is_dob_ua`: full match of `\d{2}[./]\d{2}[./]\d{4}` on the stripped
input. -/
def is_dob_ua (text : String) : Bool := dobChk (stripChars text.toList)

/-- Model of python `str.split(".")` on a character list. -/
def splitDot : List Char → List (List Char)
  | [] => [[]]
  | c :: rest =>
    if c = '.' then [] :: splitDot rest
    else
      match splitDot rest with
      | p :: ps => (c :: p) :: ps
      | [] => [[c]]

/-- Model of python `str.replace("/", ".")` on one character. -/
def slashToDot (c : Char) : Char := if c = '/' then '.' else c

/-- `dob_ua_to_mmddyyyy`: strip, replace `/` by `.`, split on `.` into
day, month, year, and rebuild `month/day/year`.  (The python code
unpacks exactly three pieces and would raise otherwise; the function
is only ever applied to inputs accepted by `is_dob_ua`.) -/
def dob_ua_to_mmddyyyy (text : String) : String :=
  match splitDot ((stripChars text.toList).map slashToDot) with
  | [d, m, y] => String.mk (m ++ '/' :: (d ++ '/' :: y))
  | _ => ""

/-- `ddmmyyyy_to_mmddyyyy`: split on `.` into day, month, year and
rebuild `month/day/year`. -/
def ddmmyyyy_to_mmddyyyy (s : String) : String :=
  match splitDot s.toList with
  | [d, m, y] => String.mk (m ++ '/' :: (d ++ '/' :: y))
  | _ => ""

/-- Collapse every whitespace run to a single blank
(`re.sub(r"\s+", " ", ...)`); the flag records whether the previous
character was whitespace. -/
def collapseWsAux : Bool → List Char → List Char
  | _, [] => []
  | prevWs, c :: cs =>
    if c.isWhitespace then
      (if prevWs then [] else [' ']) ++ collapseWsAux true cs
    else c :: collapseWsAux false cs

/-- `normalize_name_key`: strip, collapse internal whitespace runs to
single blanks, and lower-case. -/
def normalize_name_key (name : String) : String :=
  String.mk ((collapseWsAux false (stripChars name.toList)).map pyLower)

/-! ## Worksheet and store model (gspread objects) -/

/-- A worksheet is its full grid of rows (`ws.get_all_values()`), row 1
being the header row; the whole store maps worksheet titles to grids. -/
abbrev Sheet := List (List String)

abbrev Store := List (String × Sheet)

def storeGet : Store → String → Option Sheet
  | [], _ => none
  | p :: rest, day => if p.1 = day then some p.2 else storeGet rest day

def storeSet : Store → String → Sheet → Store
  | [], day, v => [(day, v)]
  | p :: rest, day, v =>
    if p.1 = day then (day, v) :: rest else p :: storeSet rest day v

/-- `find_col_index`: 1-based index of the first header cell whose
stripped value equals the column name, `-1` when absent. -/
def find_col_index (headers : List String) (col_name : String) : Int :=
  match headers.findIdx? (fun v => pyStrip v == col_name) with
  | some i => Int.ofNat i + 1
  | none => -1

/-- The row-local cell accessor of `status_watcher`:
`row[ci-1].strip() if ci-1 < len(row) and row[ci-1] else ""`. -/
def get_cell (row : List String) (ci : Nat) : String :=
  if ci - 1 < row.length ∧ row.getD (ci - 1) "" ≠ "" then
    pyStrip (row.getD (ci - 1) "")
  else ""

/-- Write cell `n` (0-based) of a row, padding with empty cells when the
row is shorter, as the sheet grid does. -/
def setAt (v : String) : Nat → List String → List String
  | 0, [] => [v]
  | 0, _ :: rest => v :: rest
  | n + 1, [] => "" :: setAt v n []
  | n + 1, c :: rest => c :: setAt v n rest

/-- `ws.update_cell` restricted to one row: write the 1-based cell `ci`. -/
def setCell (row : List String) (ci : Nat) (v : String) : List String :=
  setAt v (ci - 1) row

/-- `model_exists_in_tab`: locate the `ModelName` column by header, and
report whether some data row holds a non-empty name with the same
normalized key as the candidate. -/
def model_exists_in_tab (values : Sheet) (model_name : String) : Bool :=
  let headers := values.headD []
  let idx := find_col_index headers "ModelName"
  if idx < 1 then false
  else
    let col := values.map (fun r => r.getD (idx.toNat - 1) "")
    let key := normalize_name_key model_name
    (col.drop 1).any (fun v => !(v = "") && (normalize_name_key v == key))

/-- The header-fixing part of `ensure_day_tab_and_headers` on one
worksheet grid: append a `HEADER` row when the first row is empty,
otherwise append the missing `HEADER` columns to the header row. -/
def ensure_tab_headers (values : Sheet) : Sheet :=
  let existing := values.headD []
  if existing = [] then values ++ [HEADER]
  else
    let need := HEADER.filter (fun c => !(existing.contains c))
    (existing ++ need) :: values.tail

/-- `ensure_day_tab_and_headers`: create the day's worksheet with a
`HEADER` row when absent, otherwise repair its header row. -/
def ensure_day_tab_and_headers (store : Store) (day : String) : Store :=
  match storeGet store day with
  | none => storeSet store day [HEADER]
  | some values => storeSet store day (ensure_tab_headers values)


/-! ## Intake state machine (aiogram FSM states, session, handlers) -/

/-- The `Form(StatesGroup)` states. -/
inductive Form where
  | shoot_date
  | shoot_time
  | model_name
  | dob
  | residence_address
  | city
  | phone
  | email
  | minor
  | guardian_name
  | photo
  | consent
deriving DecidableEq

/-- The per-submitter FSM data dict: every key that the handlers ever
write, absent keys being `none`. -/
structure Draft where
  shoot_date : Option String := none
  shoot_time : Option String := none
  model_name : Option String := none
  dob : Option String := none
  residence_address : Option String := none
  city : Option String := none
  phone : Option String := none
  email : Option String := none
  minor : Option Bool := none
  guardian_name : Option String := none
  photo_drive_url : Option String := none
deriving DecidableEq

/-- One submitter's session: the current FSM state and the data dict.
`state.clear()` yields `⟨none, {}⟩`. -/
structure Session where
  st : Option Form
  data : Draft
deriving DecidableEq

/-- One inbound update at a message handler: a text message, a photo, a
document with an image mime type, or any other document. -/
inductive Msg where
  | text (s : String)
  | photo (fileId : String)
  | imageDoc (fileId : String)
  | doc
deriving DecidableEq

/-- `file_id` extraction of `on_photo`. -/
def msgFileId : Msg → Option String
  | Msg.photo fid => some fid
  | Msg.imageDoc fid => some fid
  | _ => none

/-- `missing_required(data, ["shoot_date","shoot_time","model_name","phone"])`. -/
def missing_required_photo (d : Draft) : Bool :=
  d.shoot_date.isNone || d.shoot_time.isNone || d.model_name.isNone || d.phone.isNone

/-- `missing_required(data, ["shoot_date","model_name","dob","phone","email","photo_drive_url"])`. -/
def missing_required_consent (d : Draft) : Bool :=
  d.shoot_date.isNone || d.model_name.isNone || d.dob.isNone ||
  d.phone.isNone || d.email.isNone || d.photo_drive_url.isNone

/-- External outcomes a handler can observe: whether the Sheets client
raises (store unreachable) and what the Drive upload returns (the
error branch carries `type(e).__name__`). -/
structure Env where
  storeFail : Bool
  upload : Except String String

/-- `on_model_name`: validate the name, run the duplicate check against
the chosen date's worksheet inside `try ... except Exception: pass`
(so when the store raises, the check is skipped and the name is
accepted), then store the name and advance to `dob`. -/
def on_model_name (storeFail : Bool) (s : Session) (store : Store) (m : Msg) :
    Session × Store × List String :=
  match m with
  | Msg.text t0 =>
    let text := pyStrip t0
    if !(is_en text) then (s, store, [MSG_NAME_FMT])
    else
      if storeFail then
        (⟨some Form.dob, { s.data with model_name := some text }⟩, store, [MSG_DOB_PROMPT])
      else
        let day := s.data.shoot_date.getD ""
        let store1 := ensure_day_tab_and_headers store day
        let ws := (storeGet store1 day).getD []
        if model_exists_in_tab ws text then (s, store1, [MSG_DUP_NAME])
        else
          (⟨some Form.dob, { s.data with model_name := some text }⟩, store1, [MSG_DOB_PROMPT])
  | _ => (s, store, [])

/-- `on_dob`: validate the date of birth and store it normalized to
`MM/DD/YYYY`. -/
def on_dob (s : Session) (store : Store) (m : Msg) : Session × Store × List String :=
  match m with
  | Msg.text t0 =>
    let text := pyStrip t0
    if !(is_dob_ua text) then (s, store, [MSG_DOB_FMT])
    else
      (⟨some Form.residence_address, { s.data with dob := some (dob_ua_to_mmddyyyy text) }⟩,
       store, [MSG_RESIDENCE_PROMPT])
  | _ => (s, store, [])

/-- `on_residence_address`: a skip token empties both address and city
and jumps to `phone`; otherwise validate and advance to `city`. -/
def on_residence_address (s : Session) (store : Store) (m : Msg) :
    Session × Store × List String :=
  match m with
  | Msg.text t0 =>
    let text := pyStrip t0
    if is_next_ua text then
      (⟨some Form.phone, { s.data with residence_address := some "", city := some "" }⟩,
       store, [MSG_SKIP_TO_PHONE])
    else if !(is_en text) then (s, store, [MSG_ADDR_FMT])
    else
      (⟨some Form.city, { s.data with residence_address := some text }⟩,
       store, [MSG_CITY_PROMPT])
  | _ => (s, store, [])

/-- `on_city`. -/
def on_city (s : Session) (store : Store) (m : Msg) : Session × Store × List String :=
  match m with
  | Msg.text t0 =>
    let text := pyStrip t0
    if !(is_en text) then (s, store, [MSG_CITY_FMT])
    else (⟨some Form.phone, { s.data with city := some text }⟩, store, [MSG_PHONE_PROMPT])
  | _ => (s, store, [])

/-- `on_phone`. -/
def on_phone (s : Session) (store : Store) (m : Msg) : Session × Store × List String :=
  match m with
  | Msg.text t0 =>
    let text := pyStrip t0
    if !(is_phone text) then (s, store, [MSG_PHONE_FMT])
    else (⟨some Form.email, { s.data with phone := some text }⟩, store, [MSG_EMAIL_PROMPT])
  | _ => (s, store, [])

/-- `on_email`. -/
def on_email (s : Session) (store : Store) (m : Msg) : Session × Store × List String :=
  match m with
  | Msg.text t0 =>
    let text := pyStrip t0
    if !(is_email text) then (s, store, [MSG_EMAIL_FMT])
    else (⟨some Form.minor, { s.data with email := some text }⟩, store, [MSG_MINOR_PROMPT])
  | _ => (s, store, [])

/-- `on_guardian_name`. -/
def on_guardian_name (s : Session) (store : Store) (m : Msg) :
    Session × Store × List String :=
  match m with
  | Msg.text t0 =>
    let text := pyStrip t0
    if !(is_en text) then (s, store, [MSG_GUARDIAN_FMT])
    else
      (⟨some Form.photo, { s.data with guardian_name := some text }⟩,
       store, [MSG_GUARDIAN_OK])
  | _ => (s, store, [])

/-- `on_photo`: non-image input re-prompts; an interrupted session is
cleared; otherwise the photo is uploaded and, only on success, the
Drive reference is stored and the state advances to `consent`. -/
def on_photo (upload : Except String String) (s : Session) (store : Store) (m : Msg) :
    Session × Store × List String :=
  match msgFileId m with
  | none => (s, store, [MSG_NOT_PHOTO])
  | some _ =>
    let d := s.data
    if missing_required_photo d then (⟨none, {}⟩, store, [MSG_INTERRUPTED])
    else
      match upload with
      | Except.error ename => (s, store, [MSG_UPLOADING, MSG_UPLOAD_FAIL ename])
      | Except.ok url =>
        (⟨some Form.consent, { d with photo_drive_url := some url }⟩,
         store, [MSG_UPLOADING, MSG_CONSENT_PROMPT])

/-- The target day of `on_consent` (`data["shoot_date"]`). -/
def consentDay (s : Session) : String := s.data.shoot_date.getD ""

/-- The store after `ensure_day_tab_and_headers(sh, shoot_date)` inside
`on_consent`. -/
def consentStore1 (s : Session) (store : Store) : Store :=
  ensure_day_tab_and_headers store (consentDay s)

/-- The worksheet handle `ws` that `on_consent` then works with. -/
def consentWs0 (s : Session) (store : Store) : Sheet :=
  (storeGet (consentStore1 s store) (consentDay s)).getD []

/-- The row appended by `on_consent`, in `HEADER` column order. -/
def buildRow (chatId : String) (d : Draft) : List String :=
  let sd := ddmmyyyy_to_mmddyyyy (d.shoot_date.getD "")
  [NAMEPRINT_CONST, sd, sd, SHOOTPLACE_CONST, SHOOTSTATE_CONST,
   pyStrip (d.model_name.getD ""), pyStrip (d.dob.getD ""),
   pyStrip (d.residence_address.getD ""), pyStrip (d.city.getD ""),
   "", COUNTRY_CONST, "", pyStrip (d.phone.getD ""), pyStrip (d.email.getD ""),
   pyStrip (d.guardian_name.getD ""), sd, pyStrip (d.photo_drive_url.getD ""),
   chatId, STATUS_PENDING, ""]

/-- `on_consent`: check completeness, talk to the store (with no
`try/except`, so `storeFail` makes the handler abort with no reply and
no session change), re-run the duplicate check, and on success append
exactly one `pending` row and clear the session. -/
def on_consent (chatId : String) (s : Session) (store : Store) (storeFail : Bool) :
    Session × Store × List String :=
  let d := s.data
  if missing_required_consent d then (⟨none, {}⟩, store, [MSG_FORM_INACTIVE])
  else if storeFail then (s, store, [])
  else
    let day := consentDay s
    let store1 := consentStore1 s store
    let ws := consentWs0 s store
    if model_exists_in_tab ws (d.model_name.getD "") then
      (⟨none, {}⟩, store1, [MSG_DUP_CONSENT])
    else
      (⟨none, {}⟩, storeSet store1 day (ws ++ [buildRow chatId d]), [UA_FINISH])

/-- The message-handler dispatch of `dp.message.register`: each handler
runs only in its own FSM state; states with no message handler ignore
the message.  A text handler that receives a non-text update raises
on `message.text.strip()` and is caught by the framework: no state
change, no reply — the `| _ => (s, store, [])` arms. -/
def handleMessage (env : Env) (s : Session) (store : Store) (m : Msg) :
    Session × Store × List String :=
  match s.st with
  | some Form.model_name => on_model_name env.storeFail s store m
  | some Form.dob => on_dob s store m
  | some Form.residence_address => on_residence_address s store m
  | some Form.city => on_city s store m
  | some Form.phone => on_phone s store m
  | some Form.email => on_email s store m
  | some Form.guardian_name => on_guardian_name s store m
  | some Form.photo => on_photo env.upload s store m
  | _ => (s, store, [])

/-- Feed a sequence of inbound messages through the dispatcher,
accumulating the outbound replies. -/
def runMsgs (env : Env) : Session → Store → List Msg → Session × Store × List String
  | s, store, [] => (s, store, [])
  | s, store, m :: ms =>
    let R1 := handleMessage env s store m
    let R2 := runMsgs env R1.1 R1.2.1 ms
    (R2.1, R2.2.1, R1.2.2 ++ R2.2.2)

/-- The steps that validate free-text/photo message input. -/
def validatedStep : Form → Bool
  | Form.model_name => true
  | Form.dob => true
  | Form.residence_address => true
  | Form.city => true
  | Form.phone => true
  | Form.email => true
  | Form.guardian_name => true
  | Form.photo => true
  | _ => false

/-- An input rejected by the given step's validator, exactly as the
handler computes it on the stripped message text. -/
def rejectedInput : Form → Msg → Bool
  | Form.model_name, Msg.text t => !(is_en (pyStrip t))
  | Form.dob, Msg.text t => !(is_dob_ua (pyStrip t))
  | Form.residence_address, Msg.text t =>
    !(is_next_ua (pyStrip t)) && !(is_en (pyStrip t))
  | Form.city, Msg.text t => !(is_en (pyStrip t))
  | Form.phone, Msg.text t => !(is_phone (pyStrip t))
  | Form.email, Msg.text t => !(is_email (pyStrip t))
  | Form.guardian_name, Msg.text t => !(is_en (pyStrip t))
  | Form.photo, m => (msgFileId m).isNone
  | _, _ => false

/-- The single corrective prompt each step emits on a rejected input. -/
def correctivePrompt : Form → String
  | Form.model_name => MSG_NAME_FMT
  | Form.dob => MSG_DOB_FMT
  | Form.residence_address => MSG_ADDR_FMT
  | Form.city => MSG_CITY_FMT
  | Form.phone => MSG_PHONE_FMT
  | Form.email => MSG_EMAIL_FMT
  | Form.guardian_name => MSG_GUARDIAN_FMT
  | Form.photo => MSG_NOT_PHOTO
  | _ => ""

/-! ## Reconciliation loop (`status_watcher`) -/

/-- Whether python `int(chat_id)` succeeds on the (already stripped)
chat id: an optional sign followed by one or more ASCII digits.
(Underscore-grouped and non-ASCII-digit literals, which python also
accepts, are not modeled; Telegram chat ids are plain decimals.) -/
def pyIntParses (s : String) : Bool :=
  match s.toList with
  | '-' :: rest => !rest.isEmpty && rest.all Char.isDigit
  | '+' :: rest => !rest.isEmpty && rest.all Char.isDigit
  | cs => !cs.isEmpty && cs.all Char.isDigit

/-- One row of one watcher pass: read `TelegramChatId`, lower-cased
`Status` and `NotifiedAt` through `get_cell`; skip rows with no chat
id, a non-empty marker, or a non-terminal status.  The remaining
rows enter one `try` block whose exception is swallowed:
`int(chat_id)` is converted first (a non-numeric chat id raises, so
nothing is sent and nothing is written), then `bot.send_message`
runs (`sendOk` = the send succeeded; on failure nothing further
happens), then `ws.update_cell` writes `now` into the `NotifiedAt`
cell (`markOk` = that write succeeded; when it raises AFTER a
successful send, the exception is swallowed too, so the message is
out but the marker stays empty).  Returns the updated row and the
message (chat id, text) whenever the send succeeded. -/
def processRow (iC iS iN : Nat) (now : String) (sendOk markOk : Bool)
    (row : List String) : List String × Option (String × String) :=
  let chat_id := get_cell row iC
  let status := pyLowerS (get_cell row iS)
  let notified := get_cell row iN
  if chat_id = "" then (row, none)
  else if notified ≠ "" then (row, none)
  else if status = STATUS_APPROVED ∨ status = STATUS_REJECTED then
    if pyIntParses chat_id then
      if sendOk then
        if markOk then
          (setCell row iN now,
           some (chat_id, if status = STATUS_APPROVED then UA_APPROVED else UA_REJECTED))
        else
          (row,
           some (chat_id, if status = STATUS_APPROVED then UA_APPROVED else UA_REJECTED))
      else (row, none)
    else (row, none)
  else (row, none)

/-- The row loop `for r_i in range(2, len(values)+1)`, carrying the
1-based row number; messages are tagged with their row number. -/
def scanRows (iC iS iN : Nat) (now : String) (sendOk markOk : Nat → Bool) :
    List (List String) → Nat → List (List String) × List (Nat × String × String)
  | [], _ => ([], [])
  | r :: rs, i =>
    let p := processRow iC iS iN now (sendOk i) (markOk i) r
    let rest := scanRows iC iS iN now sendOk markOk rs (i + 1)
    (p.1 :: rest.1,
     match p.2 with
     | some m => (i, m.1, m.2) :: rest.2
     | none => rest.2)

/-- The per-worksheet body after the column indices are known:
`if len(values) < 2: continue`, then the row loop from row 2. -/
def watchRows (iC iS iN : Nat) (now : String) (sendOk markOk : Nat → Bool)
    (values : Sheet) : Sheet × List (Nat × String × String) :=
  if values.length < 2 then (values, [])
  else
    (values.headD [] :: (scanRows iC iS iN now sendOk markOk values.tail 2).1,
     (scanRows iC iS iN now sendOk markOk values.tail 2).2)

/-- One watcher pass over one worksheet: find the manager columns by
header, repairing the header row once if any is missing, then scan
the data rows. -/
def watchWs (now : String) (sendOk markOk : Nat → Bool) (values : Sheet) :
    Sheet × List (Nat × String × String) :=
  if values.headD [] = [] then (values, [])
  else
    if find_col_index (values.headD []) "TelegramChatId" < 1 ∨
       find_col_index (values.headD []) "Status" < 1 ∨
       find_col_index (values.headD []) "NotifiedAt" < 1 then
      if find_col_index ((ensure_tab_headers values).headD []) "TelegramChatId" < 1 ∨
         find_col_index ((ensure_tab_headers values).headD []) "Status" < 1 ∨
         find_col_index ((ensure_tab_headers values).headD []) "NotifiedAt" < 1 then
        (ensure_tab_headers values, [])
      else
        watchRows (find_col_index ((ensure_tab_headers values).headD []) "TelegramChatId").toNat
          (find_col_index ((ensure_tab_headers values).headD []) "Status").toNat
          (find_col_index ((ensure_tab_headers values).headD []) "NotifiedAt").toNat
          now sendOk markOk (ensure_tab_headers values)
    else
      watchRows (find_col_index (values.headD []) "TelegramChatId").toNat
        (find_col_index (values.headD []) "Status").toNat
        (find_col_index (values.headD []) "NotifiedAt").toNat
        now sendOk markOk values

/-- Iterated watcher passes over one worksheet; each cycle brings its
own timestamp and per-row send/marker-write outcomes. -/
def wsCycles :
    List (String × (Nat → Bool) × (Nat → Bool)) → Sheet →
    Sheet × List (Nat × String × String)
  | [], values => (values, [])
  | (now, sendOk, markOk) :: rest, values =>
    let W := watchWs now sendOk markOk values
    let R := wsCycles rest W.1
    (R.1, W.2 ++ R.2)

/-- The `for day in DATES` loop of one watcher cycle.  A missing
worksheet (`WorksheetNotFound`) is caught per-day and skipped; any
other read failure (`rf day`) propagates out of the day loop to the
cycle-level `except`, ending the cycle early — the returned flag
records whether the loop ran to completion.  Messages are tagged
`(day, row, chat id, text)`. -/
def runDays (now : String) (sendOk markOk : String → Nat → Bool) (rf : String → Bool) :
    Store → List String → Store × List (String × Nat × String × String) × Bool
  | store, [] => (store, [], true)
  | store, day :: rest =>
    match storeGet store day with
    | none => runDays now sendOk markOk rf store rest
    | some values =>
      if rf day then (store, [], false)
      else
        let W := watchWs now (sendOk day) (markOk day) values
        let R := runDays now sendOk markOk rf (storeSet store day W.1) rest
        (R.1, (W.2.map (fun m => (day, m.1, m.2.1, m.2.2))) ++ R.2.1, R.2.2)

/-- One full iteration of `status_watcher`'s `while True` body: run the
day loop, swallow any escaped exception (the outer
`except Exception: pass`), and fall through to the sleep. -/
def watcherStep (now : String) (sendOk markOk : String → Nat → Bool) (rf : String → Bool)
    (store : Store) : Store × List (String × Nat × String × String) :=
  let R := runDays now sendOk markOk rf store DATES
  (R.1, R.2.1)

/-- The watcher loop run for a finite list of cycles, each with its own
timestamp, send/marker-write outcomes and read-failure pattern. -/
def status_watcher :
    List (String × (String → Nat → Bool) × (String → Nat → Bool) × (String → Bool)) →
    Store → Store × List (String × Nat × String × String)
  | [], store => (store, [])
  | (now, sendOk, markOk, rf) :: rest, store =>
    let W := watcherStep now sendOk markOk rf store
    let R := status_watcher rest W.1
    (R.1, W.2 ++ R.2)

/-! ## Basic lemmas about the sheet-cell primitives -/

lemma setAt_getD_self (v : String) : ∀ (n : Nat) (row : List String),
    (setAt v n row).getD n "" = v := by
  intro n
  induction n with
  | zero => intro row; cases row <;> simp [setAt]
  | succ k ih =>
    intro row
    cases row <;> simp only [setAt, List.getD_cons_succ] <;> exact ih _

lemma setAt_lt_length (v : String) : ∀ (n : Nat) (row : List String),
    n < (setAt v n row).length := by
  intro n
  induction n with
  | zero => intro row; cases row <;> simp [setAt]
  | succ k ih => intro row; cases row <;> simpa [setAt] using ih _

lemma pyStrip_ne_empty {v : String} (h : pyStrip v ≠ "") : v ≠ "" := by
  intro hv
  rw [hv] at h
  exact h rfl

lemma get_cell_nil (ci : Nat) : get_cell [] ci = "" := by
  simp [get_cell]

lemma get_cell_setCell_self (row : List String) (ci : Nat) (v : String)
    (hv : v ≠ "") : get_cell (setCell row ci v) ci = pyStrip v := by
  unfold get_cell setCell
  rw [setAt_getD_self]
  exact if_pos ⟨setAt_lt_length v (ci - 1) row, hv⟩

lemma setCell_getD_self (row : List String) (ci : Nat) (v : String) :
    (setCell row ci v).getD (ci - 1) "" = v := by
  unfold setCell
  exact setAt_getD_self v (ci - 1) row

/-! ## Lemmas about one watcher row -/

lemma processRow_skip_notified (iC iS iN : Nat) (now : String) (sendOk markOk : Bool)
    (row : List String) (h : get_cell row iN ≠ "") :
    processRow iC iS iN now sendOk markOk row = (row, none) := by
  unfold processRow
  by_cases hc : get_cell row iC = ""
  · simp [hc]
  · simp [hc, h]

lemma processRow_skip (iC iS iN : Nat) (now : String) (sendOk markOk : Bool)
    (row : List String)
    (h : get_cell row iC = "" ∨
         (pyLowerS (get_cell row iS) ≠ STATUS_APPROVED ∧
          pyLowerS (get_cell row iS) ≠ STATUS_REJECTED)) :
    processRow iC iS iN now sendOk markOk row = (row, none) := by
  rcases h with h | ⟨h1, h2⟩
  · simp [processRow, h]
  · unfold processRow
    by_cases hc : get_cell row iC = ""
    · simp [hc]
    · by_cases hn : get_cell row iN = ""
      · simp [hc, hn, h1, h2]
      · simp [hc, hn]

lemma processRow_send (iC iS iN : Nat) (now : String) (row : List String)
    (hc : get_cell row iC ≠ "") (hn : get_cell row iN = "")
    (hs : pyLowerS (get_cell row iS) = STATUS_APPROVED ∨
          pyLowerS (get_cell row iS) = STATUS_REJECTED)
    (hp : pyIntParses (get_cell row iC) = true) :
    processRow iC iS iN now true true row =
      (setCell row iN now,
       some (get_cell row iC,
             if pyLowerS (get_cell row iS) = STATUS_APPROVED then UA_APPROVED
             else UA_REJECTED)) := by
  unfold processRow
  simp [hc, hn, hs, hp]

/-! ## Lemmas about the watcher row loop -/

lemma scanRows_length (iC iS iN : Nat) (now : String) (sendOk markOk : Nat → Bool) :
    ∀ (rows : List (List String)) (i : Nat),
      (scanRows iC iS iN now sendOk markOk rows i).1.length = rows.length := by
  intro rows
  induction rows with
  | nil => intro i; rfl
  | cons r rs ih => intro i; simp [scanRows, ih]

lemma scanRows_getD (iC iS iN : Nat) (now : String) (sendOk markOk : Nat → Bool) :
    ∀ (rows : List (List String)) (i k : Nat), k < rows.length →
      (scanRows iC iS iN now sendOk markOk rows i).1.getD k [] =
        (processRow iC iS iN now (sendOk (i + k)) (markOk (i + k)) (rows.getD k [])).1 := by
  intro rows
  induction rows with
  | nil => intro i k h; simp at h
  | cons r rs ih =>
    intro i k h
    cases k with
    | zero => simp [scanRows]
    | succ k2 =>
      have hk : k2 < rs.length := by simpa using Nat.lt_of_succ_lt_succ h
      have harith : i + (k2 + 1) = (i + 1) + k2 := by omega
      simp only [scanRows, List.getD_cons_succ, harith]
      exact ih (i + 1) k2 hk

lemma scanRows_mem_of (iC iS iN : Nat) (now : String) (sendOk markOk : Nat → Bool) :
    ∀ (rows : List (List String)) (i k : Nat) (c t : String), k < rows.length →
      (processRow iC iS iN now (sendOk (i + k)) (markOk (i + k)) (rows.getD k [])).2 =
        some (c, t) →
      (i + k, c, t) ∈ (scanRows iC iS iN now sendOk markOk rows i).2 := by
  intro rows
  induction rows with
  | nil => intro i k c t h; simp at h
  | cons r rs ih =>
    intro i k c t hk hp
    cases k with
    | zero =>
      simp only [Nat.add_zero] at hp ⊢
      simp only [List.getD_cons_zero] at hp
      rcases hq : (processRow iC iS iN now (sendOk i) (markOk i) r).2 with _ | m
      · rw [hq] at hp; exact absurd hp (by simp)
      · rw [hq] at hp
        have hm : m = (c, t) := by injection hp
        subst hm
        simp [scanRows, hq]
    | succ k2 =>
      have hk2 : k2 < rs.length := by simpa using Nat.lt_of_succ_lt_succ hk
      have harith : i + (k2 + 1) = (i + 1) + k2 := by omega
      rw [harith] at hp ⊢
      simp only [List.getD_cons_succ] at hp
      have hmem := ih (i + 1) k2 c t hk2 hp
      rcases hq : (processRow iC iS iN now (sendOk i) (markOk i) r).2 with _ | m
      · simp only [scanRows, hq]
        exact hmem
      · simp only [scanRows, hq]
        exact List.mem_cons_of_mem _ hmem

lemma scanRows_of_mem (iC iS iN : Nat) (now : String) (sendOk markOk : Nat → Bool) :
    ∀ (rows : List (List String)) (i j : Nat) (c t : String),
      (j, c, t) ∈ (scanRows iC iS iN now sendOk markOk rows i).2 →
      ∃ k, k < rows.length ∧ j = i + k ∧
        (processRow iC iS iN now (sendOk j) (markOk j) (rows.getD k [])).2 = some (c, t) := by
  intro rows
  induction rows with
  | nil => intro i j c t h; simp [scanRows] at h
  | cons r rs ih =>
    intro i j c t h
    simp only [scanRows] at h
    rcases hq : (processRow iC iS iN now (sendOk i) (markOk i) r).2 with _ | m
    · simp only [hq] at h
      obtain ⟨k, hk, hj, hp⟩ := ih (i + 1) j c t h
      exact ⟨k + 1, by simpa using Nat.succ_lt_succ hk, by omega, by simpa using hp⟩
    · simp only [hq] at h
      rcases List.mem_cons.mp h with heq | hrest
      · have hj : j = i := by
          have h1 := congrArg Prod.fst heq
          simpa using h1
        have hc : c = m.1 := by
          have h1 := congrArg (fun p => p.2.1) heq
          simpa using h1
        have ht : t = m.2 := by
          have h1 := congrArg (fun p => p.2.2) heq
          simpa using h1
        subst hj
        refine ⟨0, by simp, by omega, ?_⟩
        rw [hc, ht]
        simpa using hq
      · obtain ⟨k, hk, hj, hp⟩ := ih (i + 1) j c t hrest
        exact ⟨k + 1, by simpa using Nat.succ_lt_succ hk, by omega, by simpa using hp⟩

/-! ## Lemmas about one watcher pass over a worksheet -/

lemma watchWs_valid (now : String) (sendOk markOk : Nat → Bool) (values : Sheet)
    (iC iS iN : Nat)
    (hC : find_col_index (values.headD []) "TelegramChatId" = (iC : Int))
    (hS : find_col_index (values.headD []) "Status" = (iS : Int))
    (hN : find_col_index (values.headD []) "NotifiedAt" = (iN : Int))
    (h1C : 1 ≤ iC) (h1S : 1 ≤ iS) (h1N : 1 ≤ iN) :
    watchWs now sendOk markOk values = watchRows iC iS iN now sendOk markOk values := by
  have hhd : ¬(values.headD [] = []) := by
    intro h
    rw [h] at hC
    have hval : find_col_index [] "TelegramChatId" = -1 := rfl
    rw [hval] at hC
    omega
  unfold watchWs
  rw [if_neg hhd, hC, hS, hN]
  rw [if_neg (by omega)]
  simp

lemma watchRows_cons (iC iS iN : Nat) (now : String) (sendOk markOk : Nat → Bool)
    (h0 : List String) (rows : List (List String)) (hne : rows ≠ []) :
    watchRows iC iS iN now sendOk markOk (h0 :: rows) =
      (h0 :: (scanRows iC iS iN now sendOk markOk rows 2).1,
       (scanRows iC iS iN now sendOk markOk rows 2).2) := by
  have hlp : 1 ≤ rows.length := List.length_pos.mpr hne
  have hlen : ¬((h0 :: rows).length < 2) := by
    simp only [List.length_cons]
    omega
  unfold watchRows
  rw [if_neg hlen]
  simp

lemma watchWs_marked_row (now2 : String) (sendOk2 markOk2 : Nat → Bool) (v : Sheet)
    (r iC iS iN : Nat)
    (hC : find_col_index (v.headD []) "TelegramChatId" = (iC : Int))
    (hS : find_col_index (v.headD []) "Status" = (iS : Int))
    (hN : find_col_index (v.headD []) "NotifiedAt" = (iN : Int))
    (h1C : 1 ≤ iC) (h1S : 1 ≤ iS) (h1N : 1 ≤ iN) (hr : 2 ≤ r)
    (hm : get_cell (v.getD (r - 1) []) iN ≠ "") :
    (watchWs now2 sendOk2 markOk2 v).1.headD [] = v.headD [] ∧
    get_cell ((watchWs now2 sendOk2 markOk2 v).1.getD (r - 1) []) iN ≠ "" ∧
    ∀ c t, (r, c, t) ∉ (watchWs now2 sendOk2 markOk2 v).2 := by
  rw [watchWs_valid now2 sendOk2 markOk2 v iC iS iN hC hS hN h1C h1S h1N]
  by_cases hlen : v.length < 2
  · unfold watchRows
    rw [if_pos hlen]
    exact ⟨rfl, hm, by simp⟩
  · obtain ⟨h0, rows, rfl⟩ : ∃ h0 rows, v = h0 :: rows := by
      cases v with
      | nil => exact absurd (by simp) hlen
      | cons a l => exact ⟨a, l, rfl⟩
    have hrowsne : rows ≠ [] := by
      intro h
      rw [h] at hlen
      exact hlen (by simp)
    rw [watchRows_cons iC iS iN now2 sendOk2 markOk2 h0 rows hrowsne]
    have hidx : r - 1 = (r - 2) + 1 := by omega
    by_cases hrr : r - 2 < rows.length
    · have hm2 : get_cell (rows.getD (r - 2) []) iN ≠ "" := by
        rw [hidx, List.getD_cons_succ] at hm
        exact hm
      refine ⟨by simp, ?_, ?_⟩
      · rw [hidx]
        simp only [List.getD_cons_succ]
        rw [scanRows_getD iC iS iN now2 sendOk2 markOk2 rows 2 (r - 2) hrr]
        rw [processRow_skip_notified iC iS iN now2 (sendOk2 (2 + (r - 2)))
          (markOk2 (2 + (r - 2))) _ hm2]
        exact hm2
      · intro c t hmem
        simp only at hmem
        obtain ⟨k, hk, hj, hp⟩ :=
          scanRows_of_mem iC iS iN now2 sendOk2 markOk2 rows 2 r c t hmem
        have hkr : k = r - 2 := by omega
        rw [hkr] at hp
        rw [processRow_skip_notified iC iS iN now2 (sendOk2 r) (markOk2 r) _ hm2] at hp
        simp at hp
    · exfalso
      apply hm
      have hout : (h0 :: rows).getD (r - 1) [] = [] := by
        apply List.getD_eq_default
        simp only [List.length_cons]
        omega
      rw [hout, get_cell_nil]

lemma wsCycles_marked_row (hdr0 : List String) (r iC iS iN : Nat)
    (hC : find_col_index hdr0 "TelegramChatId" = (iC : Int))
    (hS : find_col_index hdr0 "Status" = (iS : Int))
    (hN : find_col_index hdr0 "NotifiedAt" = (iN : Int))
    (h1C : 1 ≤ iC) (h1S : 1 ≤ iS) (h1N : 1 ≤ iN) (hr : 2 ≤ r) :
    ∀ (cycles : List (String × (Nat → Bool) × (Nat → Bool))) (v : Sheet),
      v.headD [] = hdr0 → get_cell (v.getD (r - 1) []) iN ≠ "" →
      ∀ c t, (r, c, t) ∉ (wsCycles cycles v).2 := by
  intro cycles
  induction cycles with
  | nil =>
    intro v hh hm c t hmem
    simp [wsCycles] at hmem
  | cons p rest ih =>
    intro v hh hm c t hmem
    obtain ⟨now2, sendOk2, markOk2⟩ := p
    have hC2 : find_col_index (v.headD []) "TelegramChatId" = (iC : Int) := by
      rw [hh]; exact hC
    have hS2 : find_col_index (v.headD []) "Status" = (iS : Int) := by
      rw [hh]; exact hS
    have hN2 : find_col_index (v.headD []) "NotifiedAt" = (iN : Int) := by
      rw [hh]; exact hN
    have hstep :=
      watchWs_marked_row now2 sendOk2 markOk2 v r iC iS iN hC2 hS2 hN2 h1C h1S h1N hr hm
    simp only [wsCycles] at hmem
    rcases List.mem_append.mp hmem with h1 | h2
    · exact hstep.2.2 c t h1
    · exact ih ((watchWs now2 sendOk2 markOk2 v).1) (hstep.1.trans hh) hstep.2.1 c t h2

/-! ## Claim C1 -/

/-- The single-partition worksheet with one approved, unnotified row. -/
def wsA : Sheet :=
  [["TelegramChatId", "Status", "NotifiedAt"], ["777", "approved", ""]]

/-- C1 counterexample: `bot.send_message` and `ws.update_cell` share one
`try ... except Exception: pass`; when the send succeeds but the
marker write then raises, the exception is swallowed, the row is
unchanged (marker still empty) although the message went out, and
the next cycle re-sends: the record IS notified twice after a
successful send. -/
theorem reconciliation_double_send_cx :
    (watchWs "t1" (fun _ => true) (fun _ => false) wsA).2 = [(2, "777", UA_APPROVED)] ∧
    (watchWs "t1" (fun _ => true) (fun _ => false) wsA).1 = wsA ∧
    (wsCycles [("t1", fun _ => true, fun _ => false), ("t2", fun _ => true, fun _ => true)]
        wsA).2 = [(2, "777", UA_APPROVED), (2, "777", UA_APPROVED)] := by
  refine ⟨by decide, by decide, by decide⟩

/-- C1 amended: for a row with a terminal decision status, an empty
notification marker and a present, numeric chat identity, when the
delivery succeeds AND the marker write that follows it in the same
`try` block also succeeds, (a) the row is sent exactly its decision
message, (b) the current time is written into its `NotifiedAt` cell,
and (c) the row is never sent again in any sequence of subsequent
cycles, whatever their send/marker-write outcomes.  (When the marker
write fails after a successful send, the marker stays empty and the
next cycle re-sends, so delivery is only at-least-once.) -/
theorem reconciliation_notify_once
    (values : Sheet) (now : String) (sendOk markOk : Nat → Bool) (r iC iS iN : Nat)
    (hC : find_col_index (values.headD []) "TelegramChatId" = (iC : Int))
    (hS : find_col_index (values.headD []) "Status" = (iS : Int))
    (hN : find_col_index (values.headD []) "NotifiedAt" = (iN : Int))
    (h1C : 1 ≤ iC) (h1S : 1 ≤ iS) (h1N : 1 ≤ iN)
    (hr : 2 ≤ r) (hrlen : r ≤ values.length)
    (hchat : get_cell (values.getD (r - 1) []) iC ≠ "")
    (hnot : get_cell (values.getD (r - 1) []) iN = "")
    (hstat : pyLowerS (get_cell (values.getD (r - 1) []) iS) = STATUS_APPROVED ∨
             pyLowerS (get_cell (values.getD (r - 1) []) iS) = STATUS_REJECTED)
    (hparse : pyIntParses (get_cell (values.getD (r - 1) []) iC) = true)
    (hsend : sendOk r = true)
    (hmark : markOk r = true)
    (hnow : pyStrip now ≠ "") :
    ((r, get_cell (values.getD (r - 1) []) iC,
        if pyLowerS (get_cell (values.getD (r - 1) []) iS) = STATUS_APPROVED then UA_APPROVED
        else UA_REJECTED) ∈ (watchWs now sendOk markOk values).2) ∧
    ((watchWs now sendOk markOk values).1.getD (r - 1) []).getD (iN - 1) "" = now ∧
    ∀ (cycles : List (String × (Nat → Bool) × (Nat → Bool))) (c t : String),
      (r, c, t) ∉ (wsCycles cycles (watchWs now sendOk markOk values).1).2 := by
  rw [watchWs_valid now sendOk markOk values iC iS iN hC hS hN h1C h1S h1N]
  obtain ⟨h0, rows, rfl⟩ : ∃ h0 rows, values = h0 :: rows := by
    cases values with
    | nil => simp at hrlen; omega
    | cons a l => exact ⟨a, l, rfl⟩
  have hlencons : rows.length + 1 = (h0 :: rows).length := by simp
  have hrowsne : rows ≠ [] := by
    intro h
    rw [h] at hrlen
    simp at hrlen
    omega
  rw [watchRows_cons iC iS iN now sendOk markOk h0 rows hrowsne]
  have hidx : r - 1 = (r - 2) + 1 := by omega
  have hrr : r - 2 < rows.length := by
    rw [← hlencons] at hrlen
    omega
  have hrow : (h0 :: rows).getD (r - 1) [] = rows.getD (r - 2) [] := by
    rw [hidx, List.getD_cons_succ]
  rw [hrow] at hchat hnot hstat hparse ⊢
  have harith : 2 + (r - 2) = r := by omega
  have hp := processRow_send iC iS iN now (rows.getD (r - 2) []) hchat hnot hstat hparse
  have hmcell :
      get_cell ((scanRows iC iS iN now sendOk markOk rows 2).1.getD (r - 2) []) iN ≠ "" := by
    rw [scanRows_getD iC iS iN now sendOk markOk rows 2 (r - 2) hrr, harith, hsend, hmark, hp]
    rw [get_cell_setCell_self (rows.getD (r - 2) []) iN now (pyStrip_ne_empty hnow)]
    exact hnow
  refine ⟨?_, ?_, ?_⟩
  · have hp2 : (processRow iC iS iN now (sendOk (2 + (r - 2))) (markOk (2 + (r - 2)))
        (rows.getD (r - 2) [])).2 =
        some (get_cell (rows.getD (r - 2) []) iC,
              if pyLowerS (get_cell (rows.getD (r - 2) []) iS) = STATUS_APPROVED then
                UA_APPROVED
              else UA_REJECTED) := by
      rw [harith, hsend, hmark, hp]
    have hmem := scanRows_mem_of iC iS iN now sendOk markOk rows 2 (r - 2) _ _ hrr hp2
    rw [harith] at hmem
    exact hmem
  · rw [hidx]
    simp only [List.getD_cons_succ]
    rw [scanRows_getD iC iS iN now sendOk markOk rows 2 (r - 2) hrr, harith, hsend, hmark, hp]
    exact setCell_getD_self (rows.getD (r - 2) []) iN now
  · intro cycles c t
    refine wsCycles_marked_row h0 r iC iS iN ?_ ?_ ?_ h1C h1S h1N hr cycles _ ?_ ?_ c t
    · simpa using hC
    · simpa using hS
    · simpa using hN
    · simp
    · rw [hidx]
      simpa only [List.getD_cons_succ] using hmcell

theorem reconciliation_notify_once_witness :
    2 ≤ wsA.length ∧
    get_cell (wsA.getD 1 []) 1 ≠ "" ∧
    get_cell (wsA.getD 1 []) 3 = "" ∧
    pyLowerS (get_cell (wsA.getD 1 []) 2) = STATUS_APPROVED ∧
    pyIntParses (get_cell (wsA.getD 1 []) 1) = true ∧
    ((2, get_cell (wsA.getD 1 []) 1,
        if pyLowerS (get_cell (wsA.getD 1 []) 2) = STATUS_APPROVED then UA_APPROVED
        else UA_REJECTED) ∈
      (watchWs "2026-01-10T00:00:00+00:00" (fun _ => true) (fun _ => true) wsA).2) ∧
    ((watchWs "2026-01-10T00:00:00+00:00" (fun _ => true) (fun _ => true) wsA).1.getD 1
        []).getD 2 "" = "2026-01-10T00:00:00+00:00" ∧
    (2, "777", UA_APPROVED) ∉
      (wsCycles [("later", fun _ => true, fun _ => false)]
        (watchWs "2026-01-10T00:00:00+00:00" (fun _ => true) (fun _ => true) wsA).1).2 := by
  have H := reconciliation_notify_once wsA "2026-01-10T00:00:00+00:00" (fun _ => true)
    (fun _ => true) 2 1 2 3 (by decide) (by decide) (by decide) (by decide) (by decide)
    (by decide) (by decide) (by decide) (by decide) (by decide) (by decide) (by decide)
    (by decide) (by decide) (by decide)
  exact ⟨by decide, by decide, by decide, by decide, by decide, H.1, H.2.1,
    H.2.2 [("later", fun _ => true, fun _ => false)] "777" UA_APPROVED⟩

/-! ## Claim C3 -/

/-- C3: in a watcher pass over a partition, a row whose chat identity
cell is empty, or whose decision status is not a terminal value
(`pending`, blank, or anything else), is left entirely unchanged —
in particular its notification marker — and no message carries its
row number. -/
theorem reconciliation_skip_rule
    (values : Sheet) (now : String) (sendOk markOk : Nat → Bool) (r iC iS iN : Nat)
    (hC : find_col_index (values.headD []) "TelegramChatId" = (iC : Int))
    (hS : find_col_index (values.headD []) "Status" = (iS : Int))
    (hN : find_col_index (values.headD []) "NotifiedAt" = (iN : Int))
    (h1C : 1 ≤ iC) (h1S : 1 ≤ iS) (h1N : 1 ≤ iN) (hr : 2 ≤ r)
    (hskip : get_cell (values.getD (r - 1) []) iC = "" ∨
             (pyLowerS (get_cell (values.getD (r - 1) []) iS) ≠ STATUS_APPROVED ∧
              pyLowerS (get_cell (values.getD (r - 1) []) iS) ≠ STATUS_REJECTED)) :
    (watchWs now sendOk markOk values).1.getD (r - 1) [] = values.getD (r - 1) [] ∧
    ∀ c t, (r, c, t) ∉ (watchWs now sendOk markOk values).2 := by
  rw [watchWs_valid now sendOk markOk values iC iS iN hC hS hN h1C h1S h1N]
  by_cases hlen : values.length < 2
  · unfold watchRows
    rw [if_pos hlen]
    exact ⟨rfl, by simp⟩
  · obtain ⟨h0, rows, rfl⟩ : ∃ h0 rows, values = h0 :: rows := by
      cases values with
      | nil => exact absurd (by simp) hlen
      | cons a l => exact ⟨a, l, rfl⟩
    have hrowsne : rows ≠ [] := by
      intro h
      rw [h] at hlen
      exact hlen (by simp)
    rw [watchRows_cons iC iS iN now sendOk markOk h0 rows hrowsne]
    have hidx : r - 1 = (r - 2) + 1 := by omega
    by_cases hrr : r - 2 < rows.length
    · have hrow : (h0 :: rows).getD (r - 1) [] = rows.getD (r - 2) [] := by
        rw [hidx, List.getD_cons_succ]
      rw [hrow] at hskip ⊢
      constructor
      · rw [hidx]
        simp only [List.getD_cons_succ]
        rw [scanRows_getD iC iS iN now sendOk markOk rows 2 (r - 2) hrr]
        rw [processRow_skip iC iS iN now (sendOk (2 + (r - 2))) (markOk (2 + (r - 2)))
          _ hskip]
      · intro c t hmem
        obtain ⟨k, hk, hj, hp2⟩ :=
          scanRows_of_mem iC iS iN now sendOk markOk rows 2 r c t hmem
        have hkr : k = r - 2 := by omega
        rw [hkr] at hp2
        rw [processRow_skip iC iS iN now (sendOk r) (markOk r) _ hskip] at hp2
        simp at hp2
    · constructor
      · rw [hidx]
        simp only [List.getD_cons_succ]
        have h1 : (scanRows iC iS iN now sendOk markOk rows 2).1.getD (r - 2) [] = [] := by
          apply List.getD_eq_default
          rw [scanRows_length]
          omega
        have h2 : rows.getD (r - 2) [] = [] := by
          apply List.getD_eq_default
          omega
        rw [h1, h2]
      · intro c t hmem
        obtain ⟨k, hk, hj, hp2⟩ :=
          scanRows_of_mem iC iS iN now sendOk markOk rows 2 r c t hmem
        omega

/-- The worksheet with one pending row and one row with no chat id used
to witness C3. -/
def wsB : Sheet :=
  [["TelegramChatId", "Status", "NotifiedAt"],
   ["777", "pending", ""],
   ["", "approved", ""]]

theorem reconciliation_skip_rule_witness :
    pyLowerS (get_cell (wsB.getD 1 []) 2) ≠ STATUS_APPROVED ∧
    pyLowerS (get_cell (wsB.getD 1 []) 2) ≠ STATUS_REJECTED ∧
    get_cell (wsB.getD 2 []) 1 = "" ∧
    (watchWs "t" (fun _ => true) (fun _ => true) wsB).1.getD 1 [] = wsB.getD 1 [] ∧
    (2, "777", UA_APPROVED) ∉ (watchWs "t" (fun _ => true) (fun _ => true) wsB).2 ∧
    (watchWs "t" (fun _ => true) (fun _ => true) wsB).1.getD 2 [] = wsB.getD 2 [] ∧
    (3, "777", UA_APPROVED) ∉ (watchWs "t" (fun _ => true) (fun _ => true) wsB).2 := by
  have H1 := reconciliation_skip_rule wsB "t" (fun _ => true) (fun _ => true) 2 1 2 3
    (by decide) (by decide) (by decide) (by decide) (by decide) (by decide) (by decide)
    (Or.inr ⟨by decide, by decide⟩)
  have H2 := reconciliation_skip_rule wsB "t" (fun _ => true) (fun _ => true) 3 1 2 3
    (by decide) (by decide) (by decide) (by decide) (by decide) (by decide) (by decide)
    (Or.inl (by decide))
  exact ⟨by decide, by decide, by decide, H1.1, H1.2 "777" UA_APPROVED,
    H2.1, H2.2 "777" UA_APPROVED⟩

/-! ## Store lemmas -/

lemma storeGet_storeSet_self (store : Store) (day : String) (v : Sheet) :
    storeGet (storeSet store day v) day = some v := by
  induction store with
  | nil => simp [storeSet, storeGet]
  | cons p rest ih =>
    by_cases h : p.1 = day
    · simp [storeSet, storeGet, h]
    · simp [storeSet, storeGet, h, ih]

lemma storeGet_storeSet_ne (store : Store) (day : String) (v : Sheet) (d2 : String)
    (hne : d2 ≠ day) :
    storeGet (storeSet store day v) d2 = storeGet store d2 := by
  induction store with
  | nil => simp [storeSet, storeGet, Ne.symm hne]
  | cons p rest ih =>
    by_cases h : p.1 = day
    · have hp2 : ¬(p.1 = d2) := by
        rw [h]
        exact fun hh => hne hh.symm
      simp [storeSet, storeGet, h, hp2, Ne.symm hne]
    · by_cases hp2 : p.1 = d2
      · simp [storeSet, storeGet, h, hp2, hne]
      · simp [storeSet, storeGet, h, hp2, hne, ih]

lemma storeGet_ensure_day_ne (store : Store) (day d2 : String) (hne : d2 ≠ day) :
    storeGet (ensure_day_tab_and_headers store day) d2 = storeGet store d2 := by
  unfold ensure_day_tab_and_headers
  cases storeGet store day <;> simp [storeGet_storeSet_ne _ _ _ _ hne]

/-! ## Claim C2 -/

lemma handleMessage_rejected (env : Env) (f : Form) (d : Draft) (store : Store) (m : Msg)
    (hf : validatedStep f = true) (hm : rejectedInput f m = true) :
    handleMessage env ⟨some f, d⟩ store m = (⟨some f, d⟩, store, [correctivePrompt f]) := by
  cases f <;> simp only [validatedStep] at hf <;> cases m <;>
    simp_all [handleMessage, rejectedInput, on_model_name, on_dob, on_residence_address,
      on_city, on_phone, on_email, on_guardian_name, on_photo, msgFileId, correctivePrompt]

/-- C2: at every step with an input validator, any sequence of inputs
each rejected by that step's validator leaves the session — the FSM
state and the whole Draft — and the store unchanged, and each such
input produces exactly the step's one corrective prompt. -/
theorem intake_invalid_inputs_no_change (env : Env) (f : Form) (d : Draft) (store : Store)
    (ms : List Msg) (hf : validatedStep f = true)
    (hms : ∀ m ∈ ms, rejectedInput f m = true) :
    runMsgs env ⟨some f, d⟩ store ms =
      (⟨some f, d⟩, store, ms.map (fun _ => correctivePrompt f)) := by
  induction ms with
  | nil => rfl
  | cons m ms2 ih =>
    have hm := hms m (by simp)
    have htail : ∀ m2 ∈ ms2, rejectedInput f m2 = true := fun m2 h2 => hms m2 (by simp [h2])
    simp only [runMsgs]
    rw [handleMessage_rejected env f d store m hf hm]
    rw [ih htail]
    simp

theorem intake_invalid_inputs_no_change_witness :
    validatedStep Form.dob = true ∧
    rejectedInput Form.dob (Msg.text "tomorrow") = true ∧
    rejectedInput Form.dob (Msg.text "22 12 1998") = true ∧
    runMsgs ⟨false, Except.ok "url"⟩ ⟨some Form.dob, {}⟩ []
        [Msg.text "tomorrow", Msg.text "22 12 1998"] =
      (⟨some Form.dob, {}⟩, [], [MSG_DOB_FMT, MSG_DOB_FMT]) := by
  refine ⟨by decide, by decide, by decide, ?_⟩
  have H := intake_invalid_inputs_no_change ⟨false, Except.ok "url"⟩ Form.dob {} []
    [Msg.text "tomorrow", Msg.text "22 12 1998"] (by decide) (by decide)
  exact H.trans (by decide)

/-! ## Claim C10 -/

/-- C10: when the duplicate check at the name step raises (the whole
check runs inside `try ... except Exception: pass`), the exception is
swallowed: a valid candidate name is accepted as-is, the flow
advances to the date-of-birth step, the store is untouched, and the
only message sent is the next-step prompt — no notice of the failure. -/
theorem name_step_exception_swallowed (s : Session) (store : Store) (t : String)
    (hv : is_en (pyStrip t) = true) :
    on_model_name true s store (Msg.text t) =
      (⟨some Form.dob, { s.data with model_name := some (pyStrip t) }⟩, store,
       [MSG_DOB_PROMPT]) := by
  simp [on_model_name, hv]

theorem name_step_exception_swallowed_witness :
    is_en (pyStrip "Anna Ivanova") = true ∧
    on_model_name true ⟨some Form.model_name, {}⟩ [] (Msg.text "Anna Ivanova") =
      (⟨some Form.dob, { model_name := some "Anna Ivanova" }⟩, [], [MSG_DOB_PROMPT]) := by
  refine ⟨by decide, ?_⟩
  have H := name_step_exception_swallowed ⟨some Form.model_name, {}⟩ [] "Anna Ivanova"
    (by decide)
  exact H.trans (by decide)

/-! ## Claim C7 -/

/-- A completed draft: every required field present. -/
def draftA : Draft :=
  { shoot_date := some "10.01.2026", shoot_time := some "10:20",
    model_name := some "Anna Ivanova", dob := some "12/22/1998",
    residence_address := some "", city := some "",
    phone := some "380931111111", email := some "anna@gmail.com",
    minor := some false, guardian_name := some "",
    photo_drive_url := some "https://drive.google.com/x" }

def sessionA : Session := ⟨some Form.consent, draftA⟩

/-- C7 counterexample: with a complete draft and the store unreachable
at commit time, `on_consent` sends NO message at all — the submitter
is not informed of the failure (the session is preserved, though). -/
theorem consent_commit_failure_cx :
    on_consent "7" sessionA [] true = (sessionA, [], ([] : List String)) := by decide

/-- C7 amended: if the store is unreachable at commit time, the handler
raises before reaching any reply or `state.clear()`: the session is
NOT cleared (the completed Draft survives, so consent can be retried)
and the store is untouched, but no message informs the submitter. -/
theorem consent_commit_failure_keeps_session (chatId : String) (s : Session) (store : Store)
    (h : missing_required_consent s.data = false) :
    on_consent chatId s store true = (s, store, []) := by
  simp [on_consent, h]

theorem consent_commit_failure_keeps_session_witness :
    missing_required_consent sessionA.data = false ∧
    on_consent "8" sessionA [("10.01.2026", [HEADER])] true =
      (sessionA, [("10.01.2026", [HEADER])], []) := by
  exact ⟨by decide,
    consent_commit_failure_keeps_session "8" sessionA [("10.01.2026", [HEADER])] (by decide)⟩

/-! ## Claim C9 -/

/-- C9: when the consent-time duplicate re-check reports a match, no row
is appended (the store is exactly the ensured store), the session is
cleared — the whole completed Draft is discarded, so the submitter
must restart the flow — and only the duplicate notice is sent. -/
theorem consent_duplicate_clears_session (chatId : String) (s : Session) (store : Store)
    (h1 : missing_required_consent s.data = false)
    (hdup : model_exists_in_tab (consentWs0 s store) (s.data.model_name.getD "") = true) :
    on_consent chatId s store false =
      (⟨none, {}⟩, consentStore1 s store, [MSG_DUP_CONSENT]) := by
  simp [on_consent, h1, hdup]

/-- A store whose `10.01.2026` partition already holds Anna Ivanova. -/
def dupStore : Store :=
  [("10.01.2026", [HEADER, ["", "", "", "", "", "Anna Ivanova"]])]

theorem consent_duplicate_clears_session_witness :
    missing_required_consent sessionA.data = false ∧
    model_exists_in_tab (consentWs0 sessionA dupStore)
      (sessionA.data.model_name.getD "") = true ∧
    on_consent "7" sessionA dupStore false =
      (⟨none, {}⟩, consentStore1 sessionA dupStore, [MSG_DUP_CONSENT]) := by
  exact ⟨by decide, by decide,
    consent_duplicate_clears_session "7" sessionA dupStore (by decide) (by decide)⟩

/-! ## Claim C5 -/

/-- C5: a successful commit of a complete draft appends exactly one row
to the chosen date's partition — with the `Status` column (column 19
under the standard header) holding `pending` and the `NotifiedAt`
column (column 20) empty — leaves every pre-existing row of that
partition in place, and touches no other partition. -/
theorem consent_commit_appends_single_row (chatId : String) (s : Session) (store : Store)
    (h1 : missing_required_consent s.data = false)
    (hdup : model_exists_in_tab (consentWs0 s store) (s.data.model_name.getD "") = false)
    (hH : (consentWs0 s store).headD [] = HEADER) :
    on_consent chatId s store false =
      (⟨none, {}⟩,
       storeSet (consentStore1 s store) (consentDay s)
         (consentWs0 s store ++ [buildRow chatId s.data]),
       [UA_FINISH]) ∧
    storeGet (storeSet (consentStore1 s store) (consentDay s)
        (consentWs0 s store ++ [buildRow chatId s.data])) (consentDay s) =
      some (consentWs0 s store ++ [buildRow chatId s.data]) ∧
    (∀ d2, d2 ≠ consentDay s →
      storeGet (storeSet (consentStore1 s store) (consentDay s)
          (consentWs0 s store ++ [buildRow chatId s.data])) d2 = storeGet store d2) ∧
    (consentWs0 s store ++ [buildRow chatId s.data]).length =
      (consentWs0 s store).length + 1 ∧
    (consentWs0 s store ++ [buildRow chatId s.data]).take (consentWs0 s store).length =
      consentWs0 s store ∧
    find_col_index ((consentWs0 s store).headD []) "Status" = (19 : Int) ∧
    find_col_index ((consentWs0 s store).headD []) "NotifiedAt" = (20 : Int) ∧
    (buildRow chatId s.data).getD 18 "" = STATUS_PENDING ∧
    (buildRow chatId s.data).getD 19 "" = "" := by
  refine ⟨?_, ?_, ?_, ?_, ?_, ?_, ?_, ?_, ?_⟩
  · simp [on_consent, h1, hdup]
  · exact storeGet_storeSet_self _ _ _
  · intro d2 hne
    rw [storeGet_storeSet_ne _ _ _ _ hne]
    exact storeGet_ensure_day_ne store (consentDay s) d2 hne
  · simp
  · exact List.take_left _ _
  · rw [hH]; decide
  · rw [hH]; decide
  · rfl
  · rfl

theorem consent_commit_appends_single_row_witness :
    missing_required_consent sessionA.data = false ∧
    model_exists_in_tab (consentWs0 sessionA [])
      (sessionA.data.model_name.getD "") = false ∧
    (consentWs0 sessionA []).headD [] = HEADER ∧
    on_consent "7" sessionA [] false =
      (⟨none, {}⟩,
       storeSet (consentStore1 sessionA []) (consentDay sessionA)
         (consentWs0 sessionA [] ++ [buildRow "7" sessionA.data]),
       [UA_FINISH]) ∧
    (buildRow "7" sessionA.data).getD 18 "" = STATUS_PENDING ∧
    (buildRow "7" sessionA.data).getD 19 "" = "" ∧
    storeGet (storeSet (consentStore1 sessionA []) (consentDay sessionA)
        (consentWs0 sessionA [] ++ [buildRow "7" sessionA.data])) "x" =
      storeGet [] "x" := by
  have H := consent_commit_appends_single_row "7" sessionA [] (by decide) (by decide)
    (by decide)
  exact ⟨by decide, by decide, by decide, H.1,
    H.2.2.2.2.2.2.2.1, H.2.2.2.2.2.2.2.2, H.2.2.1 "x" (by decide)⟩

/-! ## Claim C4 -/

/-- A partition holding one record for Anna Ivanova. -/
def annaTab : Sheet := [HEADER, ["", "", "", "", "", "Anna Ivanova"]]

/-- C4: the Duplicate Guard returns true precisely when some data row's
`ModelName` cell equals the candidate under `normalize_name_key`
(whitespace-collapsed, trimmed, lower-cased); in particular
"anna   ivanova" collides with a stored "Anna Ivanova" while
"Anna I. Ivanova" does not. -/
theorem duplicate_guard_normalized_match :
    (∀ (values : Sheet) (cand : String),
      1 ≤ find_col_index (values.headD []) "ModelName" →
      normalize_name_key cand ≠ "" →
      (model_exists_in_tab values cand = true ↔
        ∃ v ∈ (values.map
            (fun r =>
              r.getD ((find_col_index (values.headD []) "ModelName").toNat - 1) "")).drop 1,
          normalize_name_key v = normalize_name_key cand)) ∧
    model_exists_in_tab annaTab "anna   ivanova" = true ∧
    model_exists_in_tab annaTab "Anna I. Ivanova" = false := by
  refine ⟨?_, by decide, by decide⟩
  intro values cand hidx hkey
  unfold model_exists_in_tab
  rw [if_neg (by omega)]
  rw [List.any_eq_true]
  constructor
  · rintro ⟨v, hv, hcond⟩
    refine ⟨v, hv, ?_⟩
    simp at hcond
    exact hcond.2
  · rintro ⟨v, hv, hnorm⟩
    refine ⟨v, hv, ?_⟩
    have hvne : ¬(v = "") := by
      intro hv0
      rw [hv0] at hnorm
      exact hkey (by simpa using hnorm.symm)
    simp [hvne, hnorm]

theorem duplicate_guard_normalized_match_witness :
    1 ≤ find_col_index (annaTab.headD []) "ModelName" ∧
    normalize_name_key "anna   ivanova" ≠ "" ∧
    model_exists_in_tab annaTab "anna   ivanova" = true := by
  refine ⟨by decide, by decide, ?_⟩
  exact (duplicate_guard_normalized_match.1 annaTab "anna   ivanova"
    (by decide) (by decide)).mpr ⟨"Anna Ivanova", by decide, by decide⟩

/-! ## Claim C8 -/

/-- The format as the spec words it: two digits, two digits, four
digits, with ONE separator (dot or slash) used in both positions —
stated over the stripped input for parity with the validator. -/
def dobChkUniform (sep : Char) : List Char → Bool
  | [d1, d2, s1, m1, m2, s2, y1, y2, y3, y4] =>
    d1.isDigit && d2.isDigit && s1 = sep && m1.isDigit && m2.isDigit && s2 = sep &&
    y1.isDigit && y2.isDigit && y3.isDigit && y4.isDigit
  | _ => false

/-- The set of strings the spec sentence describes: `DD.MM.YYYY` or
`DD/MM/YYYY`. -/
def dob_spec_accepts (s : String) : Bool :=
  dobChkUniform '.' (stripChars s.toList) || dobChkUniform '/' (stripChars s.toList)

/-- C8 counterexample: the validator accepts "22.12/1998", which is in
neither `DD.MM.YYYY` nor `DD/MM/YYYY` — the regex `[./]` choices are
independent, so mixed separators pass. -/
theorem dob_mixed_separators_cx :
    is_dob_ua "22.12/1998" = true ∧ dob_spec_accepts "22.12/1998" = false ∧
    dob_spec_accepts "22.12.1998" = true ∧ dob_spec_accepts "22/12/1998" = true := by
  decide

lemma digit_ne_dot {c : Char} (h : c.isDigit = true) : c ≠ '.' := by
  intro hc
  subst hc
  exact absurd h (by decide)

lemma digit_ne_slash {c : Char} (h : c.isDigit = true) : c ≠ '/' := by
  intro hc
  subst hc
  exact absurd h (by decide)

lemma slashToDot_digit {c : Char} (h : c.isDigit = true) : slashToDot c = c := by
  unfold slashToDot
  rw [if_neg (digit_ne_slash h)]

lemma slashToDot_sep {c : Char} (h : c = '.' ∨ c = '/') : slashToDot c = '.' := by
  rcases h with h | h <;> subst h <;> rfl

lemma splitDot_dob (d1 d2 m1 m2 y1 y2 y3 y4 : Char)
    (h1 : d1 ≠ '.') (h2 : d2 ≠ '.') (h3 : m1 ≠ '.') (h4 : m2 ≠ '.')
    (h5 : y1 ≠ '.') (h6 : y2 ≠ '.') (h7 : y3 ≠ '.') (h8 : y4 ≠ '.') :
    splitDot [d1, d2, '.', m1, m2, '.', y1, y2, y3, y4] =
      [[d1, d2], [m1, m2], [y1, y2, y3, y4]] := by
  simp [splitDot, h1, h2, h3, h4, h5, h6, h7, h8]

lemma dobChk_eq_true_iff (cs : List Char) :
    dobChk cs = true ↔
      ∃ d1 d2 s1 m1 m2 s2 y1 y2 y3 y4 : Char,
        cs = [d1, d2, s1, m1, m2, s2, y1, y2, y3, y4] ∧
        (d1.isDigit = true ∧ d2.isDigit = true ∧ m1.isDigit = true ∧ m2.isDigit = true ∧
         y1.isDigit = true ∧ y2.isDigit = true ∧ y3.isDigit = true ∧ y4.isDigit = true) ∧
        (s1 = '.' ∨ s1 = '/') ∧ (s2 = '.' ∨ s2 = '/') := by
  constructor
  · intro h
    obtain ⟨a1, cs, rfl⟩ : ∃ a l, cs = a :: l := by
      cases cs
      · simp [dobChk] at h
      · exact ⟨_, _, rfl⟩
    obtain ⟨a2, cs, rfl⟩ : ∃ a l, cs = a :: l := by
      cases cs
      · simp [dobChk] at h
      · exact ⟨_, _, rfl⟩
    obtain ⟨a3, cs, rfl⟩ : ∃ a l, cs = a :: l := by
      cases cs
      · simp [dobChk] at h
      · exact ⟨_, _, rfl⟩
    obtain ⟨a4, cs, rfl⟩ : ∃ a l, cs = a :: l := by
      cases cs
      · simp [dobChk] at h
      · exact ⟨_, _, rfl⟩
    obtain ⟨a5, cs, rfl⟩ : ∃ a l, cs = a :: l := by
      cases cs
      · simp [dobChk] at h
      · exact ⟨_, _, rfl⟩
    obtain ⟨a6, cs, rfl⟩ : ∃ a l, cs = a :: l := by
      cases cs
      · simp [dobChk] at h
      · exact ⟨_, _, rfl⟩
    obtain ⟨a7, cs, rfl⟩ : ∃ a l, cs = a :: l := by
      cases cs
      · simp [dobChk] at h
      · exact ⟨_, _, rfl⟩
    obtain ⟨a8, cs, rfl⟩ : ∃ a l, cs = a :: l := by
      cases cs
      · simp [dobChk] at h
      · exact ⟨_, _, rfl⟩
    obtain ⟨a9, cs, rfl⟩ : ∃ a l, cs = a :: l := by
      cases cs
      · simp [dobChk] at h
      · exact ⟨_, _, rfl⟩
    obtain ⟨a10, cs, rfl⟩ : ∃ a l, cs = a :: l := by
      cases cs
      · simp [dobChk] at h
      · exact ⟨_, _, rfl⟩
    obtain rfl : cs = [] := by
      cases cs
      · rfl
      · simp [dobChk] at h
    simp only [dobChk, Bool.and_eq_true, Bool.or_eq_true, decide_eq_true_eq] at h
    refine ⟨a1, a2, a3, a4, a5, a6, a7, a8, a9, a10, rfl, ?_, ?_, ?_⟩ <;> tauto
  · rintro ⟨d1, d2, s1, m1, m2, s2, y1, y2, y3, y4, rfl, hd, hs1, hs2⟩
    obtain ⟨h1, h2, h3, h4, h5, h6, h7, h8⟩ := hd
    rcases hs1 with rfl | rfl <;> rcases hs2 with rfl | rfl <;>
      simp [dobChk, h1, h2, h3, h4, h5, h6, h7, h8]

/-- C8 amended: the validator accepts exactly the stripped strings of
shape two digits, a separator (dot or slash), two digits, a
separator (dot or slash, chosen independently — mixed separators are
accepted), four digits; and every accepted input is stored
normalized to `MM/DD/YYYY`. -/
theorem dob_validator_amended :
    (∀ s : String, is_dob_ua s = true ↔
      ∃ d1 d2 s1 m1 m2 s2 y1 y2 y3 y4 : Char,
        stripChars s.toList = [d1, d2, s1, m1, m2, s2, y1, y2, y3, y4] ∧
        (d1.isDigit = true ∧ d2.isDigit = true ∧ m1.isDigit = true ∧ m2.isDigit = true ∧
         y1.isDigit = true ∧ y2.isDigit = true ∧ y3.isDigit = true ∧ y4.isDigit = true) ∧
        (s1 = '.' ∨ s1 = '/') ∧ (s2 = '.' ∨ s2 = '/')) ∧
    (∀ (s : String) (d1 d2 s1 m1 m2 s2 y1 y2 y3 y4 : Char),
      stripChars s.toList = [d1, d2, s1, m1, m2, s2, y1, y2, y3, y4] →
      d1.isDigit = true → d2.isDigit = true → m1.isDigit = true → m2.isDigit = true →
      y1.isDigit = true → y2.isDigit = true → y3.isDigit = true → y4.isDigit = true →
      (s1 = '.' ∨ s1 = '/') → (s2 = '.' ∨ s2 = '/') →
      dob_ua_to_mmddyyyy s = String.mk [m1, m2, '/', d1, d2, '/', y1, y2, y3, y4]) := by
  constructor
  · intro s
    exact dobChk_eq_true_iff (stripChars s.toList)
  · intro s d1 d2 s1 m1 m2 s2 y1 y2 y3 y4 hl h1 h2 h3 h4 h5 h6 h7 h8 hs1 hs2
    unfold dob_ua_to_mmddyyyy
    rw [hl]
    simp only [List.map]
    rw [slashToDot_digit h1, slashToDot_digit h2, slashToDot_sep hs1, slashToDot_digit h3,
        slashToDot_digit h4, slashToDot_sep hs2, slashToDot_digit h5, slashToDot_digit h6,
        slashToDot_digit h7, slashToDot_digit h8]
    rw [splitDot_dob d1 d2 m1 m2 y1 y2 y3 y4 (digit_ne_dot h1) (digit_ne_dot h2)
        (digit_ne_dot h3) (digit_ne_dot h4) (digit_ne_dot h5) (digit_ne_dot h6)
        (digit_ne_dot h7) (digit_ne_dot h8)]
    rfl

theorem dob_validator_amended_witness :
    stripChars "22.12/1998".toList = ['2', '2', '.', '1', '2', '/', '1', '9', '9', '8'] ∧
    is_dob_ua "22.12/1998" = true ∧
    dob_ua_to_mmddyyyy "22.12/1998" = "12/22/1998" := by
  refine ⟨by decide, by decide, ?_⟩
  have H := dob_validator_amended.2 "22.12/1998" '2' '2' '.' '1' '2' '/' '1' '9' '9' '8'
    (by decide) (by decide) (by decide) (by decide) (by decide) (by decide) (by decide)
    (by decide) (by decide) (Or.inl rfl) (Or.inr rfl)
  exact H.trans (by decide)

/-! ## Claim C6 -/

/-- Two partitions: the first will fail to read, the second holds an
eligible approved row. -/
def cxStore : Store :=
  [("10.01.2026", [["x"]]),
   ("11.01.2026", [["TelegramChatId", "Status", "NotifiedAt"], ["777", "approved", ""]])]

/-- C6 counterexample: when reading the `10.01.2026` partition raises, the
whole cycle ends at once — the eligible approved row in `11.01.2026`
is not notified in that cycle and its partition is untouched — even
though a failure-free cycle would have notified it. -/
theorem watcher_partition_failure_cx :
    runDays "t" (fun _ _ => true) (fun _ _ => true) (fun d => d == "10.01.2026")
        cxStore DATES =
      (cxStore, [], false) ∧
    (runDays "t" (fun _ _ => true) (fun _ _ => true) (fun _ => false) cxStore DATES).2.1 =
      [("11.01.2026", 2, "777", UA_APPROVED)] := by
  constructor
  · decide
  · decide

lemma storeGet_isSome_storeSet (store : Store) (d : String) (v : Sheet) (f : String)
    (h : (storeGet store f).isSome = true) :
    (storeGet (storeSet store d v) f).isSome = true := by
  by_cases hfd : f = d
  · subst hfd
    rw [storeGet_storeSet_self]
    rfl
  · rw [storeGet_storeSet_ne _ _ _ _ hfd]
    exact h

lemma runDays_read_failure_split (now : String) (sendOk markOk : String → Nat → Bool)
    (rf : String → Bool) (f : String) (post : List String) :
    ∀ (pre : List String) (store : Store),
      (∀ d ∈ pre, rf d = false) → rf f = true → (storeGet store f).isSome = true →
      runDays now sendOk markOk rf store (pre ++ f :: post) =
        ((runDays now sendOk markOk rf store pre).1,
         (runDays now sendOk markOk rf store pre).2.1, false) := by
  intro pre
  induction pre with
  | nil =>
    intro store hpre hf hsome
    obtain ⟨v, hv⟩ := Option.isSome_iff_exists.mp hsome
    simp only [List.nil_append, runDays, hv, hf]
    simp [runDays]
  | cons d pre2 ih =>
    intro store hpre hf hsome
    have hd : rf d = false := hpre d (by simp)
    have hpre2 : ∀ x ∈ pre2, rf x = false := fun x hx => hpre x (by simp [hx])
    simp only [List.cons_append, runDays]
    cases hg : storeGet store d with
    | none =>
      simp only [hg]
      exact ih store hpre2 hf hsome
    | some values =>
      simp only [hg, hd, List.append_eq]
      rw [ih (storeSet store d (watchWs now (sendOk d) (markOk d) values).1) hpre2 hf
        (storeGet_isSome_storeSet store d _ f hsome)]
      simp

/-- C6 amended: a transient read failure on one partition is caught at
the cycle level, so the loop itself survives and simply moves on to
the next cycle; but the failure DOES abort the rest of that cycle:
the partitions before the failing one in the date list are fully
processed, while the failing partition and all later ones are left
untouched until the next cycle. -/
theorem watcher_partition_failure_contained (now : String)
    (sendOk markOk : String → Nat → Bool)
    (rf : String → Bool) (pre : List String) (f : String) (post : List String)
    (store : Store) (hdates : DATES = pre ++ f :: post)
    (hpre : ∀ d ∈ pre, rf d = false) (hf : rf f = true)
    (hsome : (storeGet store f).isSome = true) :
    watcherStep now sendOk markOk rf store =
      ((runDays now sendOk markOk rf store pre).1,
       (runDays now sendOk markOk rf store pre).2.1) := by
  unfold watcherStep
  rw [hdates, runDays_read_failure_split now sendOk markOk rf f post pre store hpre hf hsome]

theorem watcher_partition_failure_contained_witness :
    DATES = [] ++ "10.01.2026" :: DATES.tail ∧
    (fun d => d == "10.01.2026") "10.01.2026" = true ∧
    (storeGet cxStore "10.01.2026").isSome = true ∧
    watcherStep "t" (fun _ _ => true) (fun _ _ => true) (fun d => d == "10.01.2026")
        cxStore =
      (cxStore, []) := by
  have H := watcher_partition_failure_contained "t" (fun _ _ => true) (fun _ _ => true)
    (fun d => d == "10.01.2026") [] "10.01.2026" DATES.tail cxStore
    (by decide) (by decide) (by decide) (by decide)
  exact ⟨by decide, by decide, by decide, H.trans (by decide)⟩
